import Mathlib

/-!
# Verification of the TerraFusion launcher (`launcher.py`)

Shallow embedding of the process launch-and-monitor component:
the port allocator `find_free_port` and the process registry operations
`launch_app`, `get_app_status`, `stop_app`.

The operating system is modelled abstractly:
* a child process is a `Process` value carrying its liveness, its exit code
  once dead, and whether it survives a graceful terminate through the fixed
  grace period (SIGKILL always takes effect, SIGTERM may be ignored);
* the set of bindable loopback ports is a pure predicate `bindable`
  (the transient bind-then-close of the Python code leaves no state,
  so the check is side-effect free at this level of abstraction);
* the filesystem is a pure predicate `fsExists`;
* `subprocess.Popen` is a function `spawn` that either yields a process
  or fails with a message (a raised exception).

The registry `launched_apps` (a Python dict) is embedded as an association
list with dict update semantics (replace in place, append when new).
-/

/-- Abstract model of an OS child process handle (`subprocess.Popen` object).
`alive` is its current liveness, `exitCode` is meaningful once dead
(Python's `poll()` result), `ignoresTerm` says whether the process survives
a graceful `terminate()` through the one-second grace period. -/
structure Process where
  alive : Bool
  exitCode : Int
  ignoresTerm : Bool
deriving DecidableEq, Repr

/-- Model of `Popen.poll()`: non-blocking liveness check; `none` while alive,
`some exitCode` once the process has terminated. -/
def Process.poll (p : Process) : Option Int :=
  if p.alive then none else some p.exitCode

/-- Model of `Popen.terminate()` followed by the fixed one-second grace period:
a process that does not ignore SIGTERM is dead afterwards with exit code -15;
a process that ignores SIGTERM is unchanged; a dead process is unchanged. -/
def Process.terminate (p : Process) : Process :=
  if p.alive && !p.ignoresTerm then { p with alive := false, exitCode := -15 }
  else p

/-- Model of `Popen.kill()`: SIGKILL cannot be ignored; a live process dies with
exit code -9, a dead process is unchanged. -/
def Process.kill (p : Process) : Process :=
  if p.alive then { p with alive := false, exitCode := -9 } else p

/-- One entry of `launched_apps`:
`{"process": process, "port": port, "status": status}`. -/
structure LaunchRecord where
  process : Process
  port : Nat
  status : String
deriving DecidableEq, Repr

/-- The registry `launched_apps`, a Python dict embedded as an association
list keyed by application name. -/
abbrev Registry := List (String × LaunchRecord)

/-- Dict lookup: `launched_apps[k]` / `k in launched_apps`. -/
def registryGet (st : Registry) (k : String) : Option LaunchRecord :=
  match st with
  | [] => none
  | (k1, v) :: rest => if k1 = k then some v else registryGet rest k

/-- Dict update `launched_apps[k] = v`: replaces the entry in place when the
key is present, appends otherwise. -/
def registrySet (st : Registry) (k : String) (v : LaunchRecord) : Registry :=
  match st with
  | [] => [(k, v)]
  | (k1, v1) :: rest =>
    if k1 = k then (k, v) :: rest else (k1, v1) :: registrySet rest k v

/-- Keys of the registry are pairwise distinct (what a Python dict
guarantees by construction). -/
abbrev keysNodup (st : Registry) : Prop := (st.map Prod.fst).Nodup

/-- An environment mapping (`os.environ` and copies of it). -/
abbrev Env := List (String × String)

/-- Environment lookup. -/
def envGet (e : Env) (k : String) : Option String :=
  match e with
  | [] => none
  | (k1, v) :: rest => if k1 = k then some v else envGet rest k

/-- Assignment `env[k] = v` on a copy of the environment: replace in place or append. -/
def envSet (e : Env) (k v : String) : Env :=
  match e with
  | [] => [(k, v)]
  | (k1, v1) :: rest =>
    if k1 = k then (k, v) :: rest else (k1, v1) :: envSet rest k v

/-- Loop body of `find_free_port`: scan `remaining` consecutive ports starting at `port`,
returning the first bindable one. -/
def scanPorts (bindable : Nat → Bool) (port : Nat) (remaining : Nat) : Option Nat :=
  match remaining with
  | 0 => none
  | n + 1 => if bindable port then some port else scanPorts bindable (port + 1) n

/-- Model of `find_free_port(start_port)`: iterate `range(start_port, 9000)`, return
the first port on which a loopback TCP bind succeeds (the socket is closed by
the `with` block before returning), else raise
`Exception("No free ports available between {start_port} and 9000")`,
modelled as `Except.error` carrying the exception message. -/
def find_free_port (bindable : Nat → Bool) (start_port : Nat) : Except String Nat :=
  match scanPorts bindable start_port (9000 - start_port) with
  | some p => Except.ok p
  | none => Except.error
      ("No free ports available between " ++ toString start_port ++ " and " ++ toString 9000)

/-- The `os.path` separator for the host platform (`platform.system()` string). -/
def sepFor (plat : String) : String := if plat = "Windows" then "\\" else "/"

/-- Model of `os.path.join(a, b)` on the given host platform. -/
def pathJoin (plat a b : String) : String := a ++ sepFor plat ++ b

/-- The platform dispatch of `launch_app` (lines 24-36): resolve the start
script path and the shell executor for the host platform, `none` when the
platform is unsupported. -/
def resolveScript (plat app_name : String) : Option (String × List String) :=
  let base_path := pathJoin plat "apps" app_name
  if plat = "Windows" then
    some (pathJoin plat base_path "run.bat", ["cmd", "/C"])
  else if plat = "Darwin" ∨ plat = "Linux" then
    some (pathJoin plat base_path "run.sh", ["sh"])
  else
    none

/-- The ambient world of a `launch_app` call: host platform, which loopback
ports are currently bindable, which paths exist on disk, the parent process
environment, and the behavior of `subprocess.Popen` (either a spawned
process or a raised exception message). -/
structure World where
  platform : String
  bindable : Nat → Bool
  fsExists : String → Bool
  environ : Env
  spawn : List String → Env → Except String Process

/-- A `{"status": ..., "message": ...}` result dict (launch and stop). -/
structure OpResult where
  status : String
  message : String
deriving DecidableEq, Repr

/-- A `get_app_status` result dict: status, and the optional
`"port"` and `"exit_code"` entries. -/
structure StatusResult where
  status : String
  port : Option Nat
  exit_code : Option Int
deriving DecidableEq, Repr

/-- Model of `launch_app(app_name)` (lines 20-54): resolve the platform start script,
check it exists, allocate a port from 8000, extend a copy of the environment
with `PORT`, spawn the script through the shell executor, record the launch;
every failure is returned as an error result, never raised. Returns the
updated registry together with the result dict. -/
def launch_app (w : World) (st : Registry) (app_name : String) : Registry × OpResult :=
  match resolveScript w.platform app_name with
  | none =>
    (st, ⟨"error", "Unsupported operating system: " ++ w.platform⟩)
  | some (script_path, command_executor) =>
    if w.fsExists script_path = false then
      (st, ⟨"error", "Startup script not found for " ++ app_name ++ " at " ++ script_path⟩)
    else
      match find_free_port w.bindable 8000 with
      | Except.error e =>
        (st, ⟨"error", "Failed to launch " ++ app_name ++ ": " ++ e⟩)
      | Except.ok port =>
        match w.spawn (command_executor ++ [script_path])
            (envSet w.environ "PORT" (toString port)) with
        | Except.error e =>
          (st, ⟨"error", "Failed to launch " ++ app_name ++ ": " ++ e⟩)
        | Except.ok process =>
          (registrySet st app_name ⟨process, port, "running"⟩,
           ⟨"success", app_name ++ " launched on port " ++ toString port⟩)

/-- Model of `get_app_status(app_name)` (lines 56-66): `not_launched` when no record
exists; otherwise poll the process: alive yields `running` + port, dead
yields `exited` + port + exit code and rewrites the record's status field to
`"exited"`. Returns the updated registry together with the result dict. -/
def get_app_status (st : Registry) (app_name : String) : Registry × StatusResult :=
  match registryGet st app_name with
  | some proc_info =>
    match proc_info.process.poll with
    | none => (st, ⟨"running", some proc_info.port, none⟩)
    | some exit_code =>
      (registrySet st app_name { proc_info with status := "exited" },
       ⟨"exited", some proc_info.port, some exit_code⟩)
  | none => (st, ⟨"not_launched", none, none⟩)

/-- Model of `stop_app(app_name)` (lines 68-80): `not_launched` when no record,
`not_running` when the record's process is already dead; otherwise terminate
gracefully, `time.sleep(1)`, re-poll, kill if still alive, set the record's
status to `"stopped"`, return success. The third component counts the
seconds slept (`time.sleep(1)` on the success path, nothing otherwise). -/
def stop_app (st : Registry) (app_name : String) : Registry × OpResult × Nat :=
  match registryGet st app_name with
  | some proc_info =>
    match proc_info.process.poll with
    | none =>
      let p1 := proc_info.process.terminate
      let p2 := match p1.poll with
        | none => p1.kill
        | some _ => p1
      (registrySet st app_name { proc_info with process := p2, status := "stopped" },
       ⟨"success", app_name ++ " stopped."⟩, 1)
    | some _ =>
      (st, ⟨"not_running", app_name ++ " is not running."⟩, 0)
  | none =>
    (st, ⟨"not_launched", app_name ++ " was not launched."⟩, 0)


/-! ## Registry lemmas -/

lemma registryGet_set_self (st : Registry) (k : String) (v : LaunchRecord) :
    registryGet (registrySet st k v) k = some v := by
  induction st with
  | nil => simp [registrySet, registryGet]
  | cons hd tl ih =>
    obtain ⟨k1, v1⟩ := hd
    by_cases h : k1 = k
    · simp [registrySet, registryGet, h]
    · simp only [registrySet, if_neg h]
      simp only [registryGet, if_neg h, ih]

lemma registryGet_set_ne (st : Registry) (k k2 : String) (v : LaunchRecord)
    (h : k2 ≠ k) : registryGet (registrySet st k v) k2 = registryGet st k2 := by
  induction st with
  | nil => simp [registrySet, registryGet, Ne.symm h]
  | cons hd tl ih =>
    obtain ⟨k1, v1⟩ := hd
    by_cases h1 : k1 = k
    · subst h1
      simp [registrySet, registryGet, Ne.symm h]
    · simp only [registrySet, if_neg h1, registryGet, ih]

lemma mem_keys_registrySet (st : Registry) (k : String) (v : LaunchRecord) (x : String) :
    x ∈ (registrySet st k v).map Prod.fst ↔ x ∈ st.map Prod.fst ∨ x = k := by
  induction st with
  | nil => simp [registrySet]
  | cons hd tl ih =>
    obtain ⟨k1, v1⟩ := hd
    by_cases h : k1 = k
    · subst h
      simp [registrySet]
      tauto
    · simp [registrySet, h, ih]
      tauto

lemma keysNodup_registrySet (st : Registry) (k : String) (v : LaunchRecord)
    (h : keysNodup st) : keysNodup (registrySet st k v) := by
  induction st with
  | nil => simp [registrySet, keysNodup]
  | cons hd tl ih =>
    obtain ⟨k1, v1⟩ := hd
    simp only [keysNodup, List.map_cons, List.nodup_cons] at h
    by_cases h1 : k1 = k
    · subst h1
      simpa [registrySet, keysNodup] using h
    · simp only [registrySet, if_neg h1, keysNodup, List.map_cons, List.nodup_cons]
      refine ⟨?_, ih h.2⟩
      rw [mem_keys_registrySet]
      rintro (h2 | rfl)
      · exact h.1 h2
      · exact h1 rfl

/-! ## Port allocator: `scanPorts` characterization -/

lemma scanPorts_some_iff (bindable : Nat → Bool) (fuel : Nat) :
    ∀ start p, scanPorts bindable start fuel = some p ↔
      start ≤ p ∧ p < start + fuel ∧ bindable p = true ∧
        ∀ q, q < p → start ≤ q → bindable q = false := by
  induction fuel with
  | zero =>
    intro start p
    simp only [scanPorts]
    constructor
    · intro h
      exact absurd h (by simp)
    · rintro ⟨h1, h2, _⟩
      exact absurd h2 (by omega)
  | succ n ih =>
    intro start p
    simp only [scanPorts]
    by_cases hb : bindable start = true
    · rw [if_pos hb]
      constructor
      · intro h
        injection h with h
        subst h
        exact ⟨le_refl _, by omega, hb, fun q hq hq2 => absurd hq (by omega)⟩
      · rintro ⟨h1, h2, h3, h4⟩
        by_cases hps : p = start
        · rw [hps]
        · exfalso
          have hlt : start < p := by omega
          have hf := h4 start hlt (le_refl _)
          rw [hf] at hb
          exact Bool.false_ne_true hb
    · rw [if_neg hb]
      rw [ih (start + 1) p]
      have hbf : bindable start = false := by
        cases hsb : bindable start
        · rfl
        · exact absurd hsb hb
      constructor
      · rintro ⟨h1, h2, h3, h4⟩
        refine ⟨by omega, by omega, h3, fun q hq hq2 => ?_⟩
        by_cases hqs : q = start
        · rw [hqs]
          exact hbf
        · exact h4 q hq (by omega)
      · rintro ⟨h1, h2, h3, h4⟩
        have hps : p ≠ start := fun he => by simp [he, hbf] at h3
        exact ⟨by omega, by omega, h3, fun q hq hq2 => h4 q hq (by omega)⟩

lemma scanPorts_none_iff (bindable : Nat → Bool) (fuel : Nat) :
    ∀ start, scanPorts bindable start fuel = none ↔
      ∀ q, q < start + fuel → start ≤ q → bindable q = false := by
  induction fuel with
  | zero =>
    intro start
    simp only [scanPorts]
    constructor
    · intro _ q h1 h2
      exact absurd h1 (by omega)
    · intro _
      trivial
  | succ n ih =>
    intro start
    simp only [scanPorts]
    by_cases hb : bindable start = true
    · rw [if_pos hb]
      constructor
      · intro h
        exact absurd h (by simp)
      · intro h
        exfalso
        have hf := h start (by omega) (le_refl _)
        rw [hf] at hb
        exact Bool.false_ne_true hb
    · rw [if_neg hb]
      rw [ih (start + 1)]
      have hbf : bindable start = false := by
        cases hsb : bindable start
        · rfl
        · exact absurd hsb hb
      constructor
      · intro h q h1 h2
        by_cases hqs : q = start
        · rw [hqs]
          exact hbf
        · exact h q (by omega) (by omega)
      · intro h q h1 h2
        exact h q (by omega) (by omega)

/-! ## C1: port allocator correctness -/

/-- C1: for every `start_port` and every model of currently-bindable loopback
ports, `find_free_port(start_port)` returns exactly the smallest port `p` with
`start_port ≤ p < 9000` that is bindable (the transient bind is released, the
`bindable` model is stateless), and when no port in the range is bindable —
including the empty range when `start_port ≥ 9000` — it fails with the
no-free-ports exception naming the scanned range. -/
theorem find_free_port_correct (bindable : Nat → Bool) (start_port p : Nat) :
    (find_free_port bindable start_port = Except.ok p ↔
      start_port ≤ p ∧ p < 9000 ∧ bindable p = true ∧
        ∀ q, q < p → start_port ≤ q → bindable q = false)
    ∧ ((∀ q, q < 9000 → start_port ≤ q → bindable q = false) →
      find_free_port bindable start_port = Except.error
        ("No free ports available between " ++ toString start_port ++ " and " ++ toString 9000)) := by
  constructor
  · constructor
    · intro h
      unfold find_free_port at h
      cases hscan : scanPorts bindable start_port (9000 - start_port) with
      | none =>
        rw [hscan] at h
        exact absurd h (by simp)
      | some q =>
        rw [hscan] at h
        injection h with h2
        rw [← h2]
        obtain ⟨ha, hb, hc, hd⟩ :=
          (scanPorts_some_iff bindable (9000 - start_port) start_port q).mp hscan
        exact ⟨ha, by omega, hc, hd⟩
    · rintro ⟨h1, h2, h3, h4⟩
      unfold find_free_port
      have hscan : scanPorts bindable start_port (9000 - start_port) = some p := by
        rw [scanPorts_some_iff]
        exact ⟨h1, by omega, h3, h4⟩
      rw [hscan]
  · intro h
    unfold find_free_port
    have hscan : scanPorts bindable start_port (9000 - start_port) = none := by
      rw [scanPorts_none_iff]
      intro q h1 h2
      exact h q (by omega) h2
    rw [hscan]

/-- A concrete bindability model for witnesses: every port from 8005 up is
bindable, ports below 8005 are taken. -/
def wBindable : Nat → Bool := fun p => decide (8005 ≤ p)

/-- Witness for C1 at concrete inputs: with ports taken below 8005,
`find_free_port 8000` returns 8005; with every port taken, it fails with the
message naming the range. -/
theorem find_free_port_correct_witness :
    find_free_port wBindable 8000 = Except.ok 8005
    ∧ find_free_port (fun _ => false) 8000 = Except.error
        ("No free ports available between " ++ toString 8000 ++ " and " ++ toString 9000) := by
  constructor
  · exact (find_free_port_correct wBindable 8000 8005).1.mpr
      ⟨by omega, by omega, by simp [wBindable],
       fun q h1 h2 => by simp only [wBindable, decide_eq_false_iff_not]; omega⟩
  · exact (find_free_port_correct (fun _ => false) 8000 8005).2
      (fun q h1 h2 => rfl)

/-! ## Test fixtures for witnesses -/

/-- A live child process. -/
def pAlive : Process := ⟨true, 0, false⟩

/-- A child process that already exited with code 0. -/
def pDead : Process := ⟨false, 0, false⟩

/-- A record for a running app on port 8005. -/
def recAlive : LaunchRecord := ⟨pAlive, 8005, "running"⟩

/-- A record whose process has already exited, not yet polled. -/
def recDead : LaunchRecord := ⟨pDead, 8006, "running"⟩

/-- A registry with one live app "A" and one dead app "B". -/
def stTest : Registry := [("A", recAlive), ("B", recDead)]

/-! ## C2: get_app_status correctness -/

/-- C2: `get_app_status(name)` returns `not_launched` when the registry has
no record for `name`; with a record whose process polls alive it returns
`running` plus the record's port; with a record whose process polls
terminated it rewrites the record's status field to `"exited"` and returns
`exited` plus the record's port and a non-null exit code. -/
theorem get_app_status_correct (st : Registry) (name : String) :
    (registryGet st name = none →
      get_app_status st name = (st, ⟨"not_launched", none, none⟩))
    ∧ (∀ r, registryGet st name = some r →
        (r.process.alive = true →
          get_app_status st name = (st, ⟨"running", some r.port, none⟩))
        ∧ (r.process.alive = false →
          (get_app_status st name).2 =
            ⟨"exited", some r.port, some r.process.exitCode⟩
          ∧ registryGet (get_app_status st name).1 name =
            some { r with status := "exited" })) := by
  constructor
  · intro h
    simp [get_app_status, h]
  · intro r h
    constructor
    · intro halive
      simp [get_app_status, h, Process.poll, halive]
    · intro hdead
      constructor
      · simp [get_app_status, h, Process.poll, hdead]
      · simp [get_app_status, h, Process.poll, hdead, registryGet_set_self]

/-- Witness for C2 at concrete registries: an unknown name, a live record,
and a dead record with exit code 0. -/
theorem get_app_status_correct_witness :
    get_app_status stTest "C" = (stTest, ⟨"not_launched", none, none⟩)
    ∧ get_app_status stTest "A" = (stTest, ⟨"running", some 8005, none⟩)
    ∧ (get_app_status stTest "B").2 = ⟨"exited", some 8006, some 0⟩ := by
  refine ⟨?_, ?_, ?_⟩
  · exact (get_app_status_correct stTest "C").1 (by decide)
  · exact ((get_app_status_correct stTest "A").2 recAlive (by decide)).1 (by decide)
  · exact ((((get_app_status_correct stTest "B").2 recDead (by decide)).2) (by decide)).1

/-! ## C3: stop_app correctness -/

/-- C3: `stop_app(name)` returns `not_launched` when no record exists and
`not_running` when the record's process has already terminated; otherwise it
sends a graceful terminate, sleeps exactly 1 second, re-polls, kills if the
process survived the grace period (final exit code -9 when SIGTERM was
ignored, -15 otherwise), sets the record's status to `"stopped"`, and returns
success — after which `get_app_status(name)` no longer reports `running`. -/
theorem stop_app_correct (st : Registry) (name : String) :
    (registryGet st name = none →
      stop_app st name = (st, ⟨"not_launched", name ++ " was not launched."⟩, 0))
    ∧ (∀ r, registryGet st name = some r →
        (r.process.alive = false →
          stop_app st name = (st, ⟨"not_running", name ++ " is not running."⟩, 0))
        ∧ (r.process.alive = true →
          (stop_app st name).2.1 = ⟨"success", name ++ " stopped."⟩
          ∧ (stop_app st name).2.2 = 1
          ∧ registryGet (stop_app st name).1 name = some
              ⟨⟨false, if r.process.ignoresTerm then -9 else -15, r.process.ignoresTerm⟩,
               r.port, "stopped"⟩
          ∧ (get_app_status (stop_app st name).1 name).2.status ≠ "running")) := by
  constructor
  · intro h
    simp [stop_app, h]
  · intro r h
    obtain ⟨pr, port, status⟩ := r
    obtain ⟨al, ec, ig⟩ := pr
    constructor
    · intro hdead
      simp only at hdead
      subst hdead
      simp [stop_app, h, Process.poll]
    · intro halive
      simp only at halive
      subst halive
      cases ig with
      | false =>
        refine ⟨?_, ?_, ?_, ?_⟩
        · simp [stop_app, h, Process.poll, Process.terminate]
        · simp [stop_app, h, Process.poll, Process.terminate]
        · simp [stop_app, h, Process.poll, Process.terminate, registryGet_set_self]
        · simp [stop_app, h, Process.poll, Process.terminate, registryGet_set_self,
                get_app_status]
      | true =>
        refine ⟨?_, ?_, ?_, ?_⟩
        · simp [stop_app, h, Process.poll, Process.terminate, Process.kill]
        · simp [stop_app, h, Process.poll, Process.terminate, Process.kill]
        · simp [stop_app, h, Process.poll, Process.terminate, Process.kill,
                registryGet_set_self]
        · simp [stop_app, h, Process.poll, Process.terminate, Process.kill,
                registryGet_set_self, get_app_status]

/-- Witness for C3 at concrete registries: unknown name, already-exited
record, and a live record that gets stopped and afterwards polls as not
running. -/
theorem stop_app_correct_witness :
    stop_app stTest "C" = (stTest, ⟨"not_launched", "C was not launched."⟩, 0)
    ∧ stop_app stTest "B" = (stTest, ⟨"not_running", "B is not running."⟩, 0)
    ∧ (stop_app stTest "A").2.1 = ⟨"success", "A stopped."⟩
    ∧ registryGet (stop_app stTest "A").1 "A" =
        some ⟨⟨false, -15, false⟩, 8005, "stopped"⟩
    ∧ (get_app_status (stop_app stTest "A").1 "A").2.status ≠ "running" := by
  refine ⟨?_, ?_, ?_, ?_, ?_⟩
  · exact (stop_app_correct stTest "C").1 (by decide)
  · exact ((stop_app_correct stTest "B").2 recDead (by decide)).1 (by decide)
  · exact (((stop_app_correct stTest "A").2 recAlive (by decide)).2 (by decide)).1
  · exact (((stop_app_correct stTest "A").2 recAlive (by decide)).2 (by decide)).2.2.1
  · exact (((stop_app_correct stTest "A").2 recAlive (by decide)).2 (by decide)).2.2.2

/-! ## Environment lemmas -/

lemma envGet_set_self (e : Env) (k v : String) :
    envGet (envSet e k v) k = some v := by
  induction e with
  | nil => simp [envSet, envGet]
  | cons hd tl ih =>
    obtain ⟨k1, v1⟩ := hd
    by_cases h : k1 = k
    · simp [envSet, envGet, h]
    · simp only [envSet, if_neg h]
      simp only [envGet, if_neg h, ih]

lemma envGet_set_ne (e : Env) (k k2 v : String)
    (h : k2 ≠ k) : envGet (envSet e k v) k2 = envGet e k2 := by
  induction e with
  | nil => simp [envSet, envGet, Ne.symm h]
  | cons hd tl ih =>
    obtain ⟨k1, v1⟩ := hd
    by_cases h1 : k1 = k
    · subst h1
      simp [envSet, envGet, Ne.symm h]
    · simp only [envSet, if_neg h1, envGet, ih]

lemma length_pos_append (a b : String) (h : 0 < a.length) : 0 < (a ++ b).length := by
  rw [String.length_append]
  omega

/-! ## C4: successful launch -/

/-- Inversion of a successful `launch_app` call: recovers the resolved
script, the existence check, the allocated port, the spawn call and the
resulting registry and message. -/
lemma launch_app_success_inv (w : World) (st : Registry) (name : String)
    (st2 : Registry) (msg : String)
    (h : launch_app w st name = (st2, ⟨"success", msg⟩)) :
    ∃ port process sp ex,
      resolveScript w.platform name = some (sp, ex)
      ∧ w.fsExists sp = true
      ∧ find_free_port w.bindable 8000 = Except.ok port
      ∧ w.spawn (ex ++ [sp]) (envSet w.environ "PORT" (toString port)) = Except.ok process
      ∧ st2 = registrySet st name ⟨process, port, "running"⟩
      ∧ msg = name ++ " launched on port " ++ toString port := by
  cases hres : resolveScript w.platform name with
  | none =>
    have hla : launch_app w st name =
        (st, ⟨"error", "Unsupported operating system: " ++ w.platform⟩) := by
      simp [launch_app, hres]
    rw [hla] at h
    exact absurd (show ("error" : String) = "success" from
        congrArg (fun x => x.2.status) h) (by decide)
  | some pr =>
    obtain ⟨sp, ex⟩ := pr
    by_cases hfs : w.fsExists sp = false
    · have hla : launch_app w st name =
          (st, ⟨"error", "Startup script not found for " ++ name ++ " at " ++ sp⟩) := by
        simp [launch_app, hres, hfs]
      rw [hla] at h
      exact absurd (show ("error" : String) = "success" from
        congrArg (fun x => x.2.status) h) (by decide)
    · have hfs2 : w.fsExists sp = true := by
        cases hx : w.fsExists sp
        · exact absurd hx hfs
        · rfl
      cases hport : find_free_port w.bindable 8000 with
      | error e =>
        have hla : launch_app w st name =
            (st, ⟨"error", "Failed to launch " ++ name ++ ": " ++ e⟩) := by
          simp [launch_app, hres, hfs2, hport]
        rw [hla] at h
        exact absurd (show ("error" : String) = "success" from
          congrArg (fun x => x.2.status) h) (by decide)
      | ok port =>
        cases hsp : w.spawn (ex ++ [sp]) (envSet w.environ "PORT" (toString port)) with
        | error e =>
          have hla : launch_app w st name =
              (st, ⟨"error", "Failed to launch " ++ name ++ ": " ++ e⟩) := by
            simp [launch_app, hres, hfs2, hport, hsp]
          rw [hla] at h
          exact absurd (show ("error" : String) = "success" from
            congrArg (fun x => x.2.status) h) (by decide)
        | ok process =>
          have hla : launch_app w st name =
              (registrySet st name ⟨process, port, "running"⟩,
               ⟨"success", name ++ " launched on port " ++ toString port⟩) := by
            simp [launch_app, hres, hfs2, hport, hsp]
          rw [hla] at h
          have h1 : registrySet st name ⟨process, port, "running"⟩ = st2 :=
            congrArg Prod.fst h
          have h2 : name ++ " launched on port " ++ toString port = msg :=
            congrArg (fun x => x.2.message) h
          exact ⟨port, process, sp, ex, rfl, hfs2, rfl, hsp, h1.symm, h2.symm⟩

/-- C4: when `launch_app(name)` succeeds, the port came from the port
allocator (`find_free_port` starting at 8000), the child was spawned with an
environment equal to a copy of the parent environment extended with `PORT`
bound to the decimal string of that port (`PORT` maps to the port string,
every other variable is unchanged), a record with status `"running"` and that
port is stored for `name`, the success message names the port, and — a
freshly spawned process being alive — a subsequent `get_app_status(name)`
returns `running` with that same port. -/
theorem launch_app_success (w : World) (st : Registry) (name : String)
    (st2 : Registry) (msg : String)
    (hlive : ∀ args env p, w.spawn args env = Except.ok p → p.alive = true)
    (h : launch_app w st name = (st2, ⟨"success", msg⟩)) :
    ∃ port process sp ex,
      resolveScript w.platform name = some (sp, ex)
      ∧ find_free_port w.bindable 8000 = Except.ok port
      ∧ w.spawn (ex ++ [sp]) (envSet w.environ "PORT" (toString port)) = Except.ok process
      ∧ envGet (envSet w.environ "PORT" (toString port)) "PORT" = some (toString port)
      ∧ (∀ k, k ≠ "PORT" →
          envGet (envSet w.environ "PORT" (toString port)) k = envGet w.environ k)
      ∧ registryGet st2 name = some ⟨process, port, "running"⟩
      ∧ msg = name ++ " launched on port " ++ toString port
      ∧ (get_app_status st2 name).2 = ⟨"running", some port, none⟩ := by
  obtain ⟨port, process, sp, ex, hres, hfs, hport, hsp, hst2, hmsg⟩ :=
    launch_app_success_inv w st name st2 msg h
  refine ⟨port, process, sp, ex, hres, hport, hsp,
    envGet_set_self w.environ "PORT" (toString port),
    fun k hk => envGet_set_ne w.environ "PORT" k (toString port) hk,
    ?_, hmsg, ?_⟩
  · rw [hst2]
    exact registryGet_set_self st name ⟨process, port, "running"⟩
  · rw [hst2]
    have halive := hlive _ _ _ hsp
    simp [get_app_status, registryGet_set_self, Process.poll, halive]

/-- A concrete world for witnesses: Linux host, ports free from 8005, all
scripts on disk, a one-variable parent environment, and a spawn that always
yields a live child. -/
def wTest : World :=
  { platform := "Linux"
    bindable := wBindable
    fsExists := fun _ => true
    environ := [("HOME", "/root")]
    spawn := fun _ _ => Except.ok pAlive }

/-- Witness for C4: launching "Alpha" in `wTest` from the empty registry
succeeds on port 8005 with all the properties of the success theorem. -/
theorem launch_app_success_witness :
    ∃ port process sp ex,
      resolveScript wTest.platform "Alpha" = some (sp, ex)
      ∧ find_free_port wTest.bindable 8000 = Except.ok port
      ∧ wTest.spawn (ex ++ [sp]) (envSet wTest.environ "PORT" (toString port)) =
          Except.ok process
      ∧ envGet (envSet wTest.environ "PORT" (toString port)) "PORT" =
          some (toString port)
      ∧ (∀ k, k ≠ "PORT" →
          envGet (envSet wTest.environ "PORT" (toString port)) k = envGet wTest.environ k)
      ∧ registryGet [("Alpha", ⟨pAlive, 8005, "running"⟩)] "Alpha" =
          some ⟨process, port, "running"⟩
      ∧ "Alpha launched on port 8005" = "Alpha" ++ " launched on port " ++ toString port
      ∧ (get_app_status [("Alpha", ⟨pAlive, 8005, "running"⟩)] "Alpha").2 =
          ⟨"running", some port, none⟩ := by
  have hlive : ∀ args env p, wTest.spawn args env = Except.ok p → p.alive = true := by
    intro args env p hp
    simp only [wTest] at hp
    injection hp with hp
    rw [← hp]
    rfl
  have hmain : launch_app wTest [] "Alpha" =
      ([("Alpha", ⟨pAlive, 8005, "running"⟩)],
       ⟨"success", "Alpha launched on port 8005"⟩) := by decide
  exact launch_app_success wTest [] "Alpha"
    [("Alpha", ⟨pAlive, 8005, "running"⟩)] "Alpha launched on port 8005" hlive hmain

/-! ## C5: launch never raises, errors leave the registry unchanged -/

/-- C5: every `launch_app` call returns a structured result whose status is
`"success"` or `"error"`; every error result carries a non-empty message and
leaves the registry exactly as it was — in particular a failed launch does
not leave a running record. -/
theorem launch_app_error_safe (w : World) (st : Registry) (name : String) :
    (launch_app w st name).2.status = "success"
    ∨ ((launch_app w st name).2.status = "error"
       ∧ 0 < (launch_app w st name).2.message.length
       ∧ (launch_app w st name).1 = st) := by
  unfold launch_app
  split
  · right
    refine ⟨rfl, ?_, rfl⟩
    simp only [String.length_append]
    have hp : 0 < "Unsupported operating system: ".length := by decide
    omega
  · split
    · right
      refine ⟨rfl, ?_, rfl⟩
      simp only [String.length_append]
      have hp : 0 < "Startup script not found for ".length := by decide
      omega
    · split
      · right
        refine ⟨rfl, ?_, rfl⟩
        simp only [String.length_append]
        have hp : 0 < "Failed to launch ".length := by decide
        omega
      · split
        · right
          refine ⟨rfl, ?_, rfl⟩
          simp only [String.length_append]
          have hp : 0 < "Failed to launch ".length := by decide
          omega
        · left
          rfl

/-! ## C8: missing start script -/

/-- C8: when the platform-resolved start script for `name` does not exist on
disk (on a supported platform), `launch_app(name)` returns the
script-not-found error naming the resolved path, the registry is unchanged
(no record is created), and when `name` had no record a subsequent
`get_app_status(name)` returns `not_launched`. -/
theorem launch_script_not_found (w : World) (st : Registry) (name sp : String)
    (ex : List String)
    (hres : resolveScript w.platform name = some (sp, ex))
    (hmiss : w.fsExists sp = false) :
    launch_app w st name =
      (st, ⟨"error", "Startup script not found for " ++ name ++ " at " ++ sp⟩)
    ∧ (registryGet st name = none →
        (get_app_status (launch_app w st name).1 name).2 =
          ⟨"not_launched", none, none⟩) := by
  have hla : launch_app w st name =
      (st, ⟨"error", "Startup script not found for " ++ name ++ " at " ++ sp⟩) := by
    simp [launch_app, hres, hmiss]
  refine ⟨hla, fun hnone => ?_⟩
  rw [hla]
  simp [get_app_status, hnone]

/-- A world whose filesystem holds no scripts at all. -/
def wNoScript : World :=
  { platform := "Linux"
    bindable := wBindable
    fsExists := fun _ => false
    environ := []
    spawn := fun _ _ => Except.ok pAlive }

/-- Witness for C8: launching "Beta" with no script on disk errors with the
resolved path, and the status of "Beta" afterwards is `not_launched`. -/
theorem launch_script_not_found_witness :
    launch_app wNoScript [] "Beta" =
      ([], ⟨"error", "Startup script not found for " ++ "Beta" ++ " at " ++
            pathJoin "Linux" (pathJoin "Linux" "apps" "Beta") "run.sh"⟩)
    ∧ (get_app_status (launch_app wNoScript [] "Beta").1 "Beta").2 =
        ⟨"not_launched", none, none⟩ := by
  have h := launch_script_not_found wNoScript [] "Beta"
    (pathJoin "Linux" (pathJoin "Linux" "apps" "Beta") "run.sh") ["sh"] (by decide) rfl
  exact ⟨h.1, h.2 rfl⟩

/-! ## C9: platform conventions -/

/-- C9: `launch_app` resolves the start script by platform convention —
`apps\name\run.bat` with executor `cmd /C` on Windows, `apps/name/run.sh`
with executor `sh` on Darwin and Linux — and for every other platform value
it returns the unsupported-operating-system error naming the platform and
leaves the registry unchanged (no record is created). -/
theorem launch_platform_convention (w : World) (st : Registry) (name : String) :
    (w.platform = "Windows" →
      resolveScript w.platform name =
        some ("apps" ++ "\\" ++ name ++ "\\" ++ "run.bat", ["cmd", "/C"]))
    ∧ ((w.platform = "Darwin" ∨ w.platform = "Linux") →
      resolveScript w.platform name =
        some ("apps" ++ "/" ++ name ++ "/" ++ "run.sh", ["sh"]))
    ∧ (w.platform ≠ "Windows" → w.platform ≠ "Darwin" → w.platform ≠ "Linux" →
        launch_app w st name =
          (st, ⟨"error", "Unsupported operating system: " ++ w.platform⟩)) := by
  refine ⟨?_, ?_, ?_⟩
  · intro h
    simp [resolveScript, pathJoin, sepFor, h]
  · rintro (h | h)
    · simp [resolveScript, pathJoin, sepFor, h]
    · simp [resolveScript, pathJoin, sepFor, h]
  · intro h1 h2 h3
    have hres : resolveScript w.platform name = none := by
      simp [resolveScript, h1, h2, h3]
    simp [launch_app, hres]

/-- A Windows world for the platform-convention witness. -/
def wWin : World :=
  { platform := "Windows"
    bindable := wBindable
    fsExists := fun _ => true
    environ := []
    spawn := fun _ _ => Except.ok pAlive }

/-- A world on an unrecognized platform. -/
def wBad : World :=
  { platform := "Plan9"
    bindable := wBindable
    fsExists := fun _ => true
    environ := []
    spawn := fun _ _ => Except.ok pAlive }

/-- Witness for C9 at concrete platforms: Windows resolves the `.bat` script
with `cmd /C`, Linux the `.sh` script with `sh`, and "Plan9" makes
`launch_app` fail with the unsupported-platform error and no record. -/
theorem launch_platform_convention_witness :
    resolveScript wWin.platform "Alpha" =
      some ("apps" ++ "\\" ++ "Alpha" ++ "\\" ++ "run.bat", ["cmd", "/C"])
    ∧ resolveScript wTest.platform "Alpha" =
      some ("apps" ++ "/" ++ "Alpha" ++ "/" ++ "run.sh", ["sh"])
    ∧ launch_app wBad [] "Alpha" =
      ([], ⟨"error", "Unsupported operating system: " ++ wBad.platform⟩) := by
  refine ⟨?_, ?_, ?_⟩
  · exact (launch_platform_convention wWin [] "Alpha").1 rfl
  · exact (launch_platform_convention wTest [] "Alpha").2.1 (Or.inr rfl)
  · exact (launch_platform_convention wBad [] "Alpha").2.2
      (by decide) (by decide) (by decide)

/-! ## C7: one record per name, relaunch overwrites -/

/-- C7: the registry keeps at most one record per application name — its key
list stays duplicate-free across `launch_app`, `get_app_status` and
`stop_app` — and a successful `launch_app` on a name that already has a
record, whatever that old record holds, overwrites it with a brand-new one:
freshly allocated port, freshly spawned process and status `"running"`
(last-write-wins, with no guard on the prior process). -/
theorem registry_one_record_per_name (w : World) (st : Registry) (name : String)
    (h : keysNodup st) :
    keysNodup (launch_app w st name).1
    ∧ keysNodup (get_app_status st name).1
    ∧ keysNodup (stop_app st name).1
    ∧ (∀ rold st2 msg, registryGet st name = some rold →
        launch_app w st name = (st2, ⟨"success", msg⟩) →
        ∃ port process, find_free_port w.bindable 8000 = Except.ok port
          ∧ (∃ args env, w.spawn args env = Except.ok process)
          ∧ registryGet st2 name = some ⟨process, port, "running"⟩) := by
  refine ⟨?_, ?_, ?_, ?_⟩
  · unfold launch_app
    split
    · exact h
    · split
      · exact h
      · split
        · exact h
        · split
          · exact h
          · exact keysNodup_registrySet st name _ h
  · unfold get_app_status
    split
    · split
      · exact h
      · exact keysNodup_registrySet st name _ h
    · exact h
  · unfold stop_app
    split
    · split
      · exact keysNodup_registrySet st name _ h
      · exact h
    · exact h
  · intro rold st2 msg hold hle
    obtain ⟨port, process, sp, ex, hres, hfs, hport, hsp, hst2, hmsg⟩ :=
      launch_app_success_inv w st name st2 msg hle
    refine ⟨port, process, hport, ⟨ex ++ [sp], envSet w.environ "PORT" (toString port), hsp⟩, ?_⟩
    rw [hst2]
    exact registryGet_set_self st name ⟨process, port, "running"⟩

/-- Witness for C7: on the two-record registry `stTest` (duplicate-free
keys), the three operations keep the keys duplicate-free, and relaunching the
already-recorded "A" overwrites its record with the fresh port 8005, the
fresh process and status `"running"`. -/
theorem registry_one_record_per_name_witness :
    keysNodup (launch_app wTest stTest "A").1
    ∧ keysNodup (get_app_status stTest "A").1
    ∧ keysNodup (stop_app stTest "A").1
    ∧ (∃ port process, find_free_port wTest.bindable 8000 = Except.ok port
        ∧ (∃ args env, wTest.spawn args env = Except.ok process)
        ∧ registryGet (launch_app wTest stTest "A").1 "A" =
            some ⟨process, port, "running"⟩) := by
  have h := registry_one_record_per_name wTest stTest "A" (by decide)
  refine ⟨h.1, h.2.1, h.2.2.1, ?_⟩
  exact h.2.2.2 recAlive (launch_app wTest stTest "A").1 "A launched on port 8005"
    (by decide) (by decide)

/-! ## C10: stop is idempotent -/

/-- C10: when a first `stop_app(name)` call returns success, an immediately
following `stop_app(name)` returns `not_running`, never an error — the first
stop leaves the record's process dead, so the second call takes the
not-running branch. -/
theorem stop_app_idempotent (st : Registry) (name : String)
    (h : (stop_app st name).2.1.status = "success") :
    ((stop_app (stop_app st name).1 name).2.1).status = "not_running" := by
  cases hget : registryGet st name with
  | none =>
    have hs : stop_app st name = (st, ⟨"not_launched", name ++ " was not launched."⟩, 0) := by
      simp [stop_app, hget]
    rw [hs] at h
    exact absurd (show ("not_launched" : String) = "success" from h) (by decide)
  | some r =>
    obtain ⟨⟨al, ec, ig⟩, port, status⟩ := r
    cases al with
    | false =>
      have hs : stop_app st name = (st, ⟨"not_running", name ++ " is not running."⟩, 0) := by
        simp [stop_app, hget, Process.poll]
      rw [hs] at h
      exact absurd (show ("not_running" : String) = "success" from h) (by decide)
    | true =>
      cases ig with
      | false =>
        have h1 : (stop_app st name).1 =
            registrySet st name ⟨⟨false, -15, false⟩, port, "stopped"⟩ := by
          simp [stop_app, hget, Process.poll, Process.terminate]
        rw [h1]
        simp [stop_app, registryGet_set_self, Process.poll]
      | true =>
        have h1 : (stop_app st name).1 =
            registrySet st name ⟨⟨false, -9, true⟩, port, "stopped"⟩ := by
          simp [stop_app, hget, Process.poll, Process.terminate, Process.kill]
        rw [h1]
        simp [stop_app, registryGet_set_self, Process.poll]

/-- Witness for C10: stopping the live app "A" of `stTest` succeeds, and an
immediately repeated stop returns `not_running`. -/
theorem stop_app_idempotent_witness :
    ((stop_app (stop_app stTest "A").1 "A").2.1).status = "not_running" :=
  stop_app_idempotent stTest "A" (by decide)

/-! ## C6: status transitions -/

/-- The registry reached by stopping the live app "A" of `stTest`: its record
for "A" carries status `"stopped"` and a dead process. -/
def stStopped : Registry := (stop_app stTest "A").1

/-- C6 counterexample: `stopped` is not terminal. After `stop_app` marks the
record of "A" `"stopped"`, one `get_app_status` call — polling the (dead)
process — rewrites the record's status field to `"exited"`: a sequence of
operations changes a record's status after it is `stopped`, contradicting
the claim that `exited` and `stopped` are both terminal. -/
theorem status_stopped_not_terminal :
    (registryGet stStopped "A").map LaunchRecord.status = some "stopped"
    ∧ (registryGet (get_app_status stStopped "A").1 "A").map LaunchRecord.status =
        some "exited" := by
  decide

/-- C6 amended: for a record satisfying the reachable-state invariant that a
non-`"running"` status implies a dead process, the only status changes
`get_app_status` and `stop_app` ever perform are `running → exited` (lazy
poll of a dead process), `running → stopped` (explicit stop of a live
process) and `stopped → exited` (a poll of a stopped record re-marks it
`exited`); `exited` is terminal, and relaunch aside, a `stopped` record can
only move to `exited`. -/
theorem record_status_transitions (st : Registry) (name : String) (r : LaunchRecord)
    (hget : registryGet st name = some r)
    (hok : r.status ≠ "running" → r.process.alive = false) :
    (∀ r2, registryGet (get_app_status st name).1 name = some r2 →
      (r2.status = r.status ∨ r2.status = "exited"))
    ∧ (∀ r2, registryGet (stop_app st name).1 name = some r2 →
      (r2 = r ∨ (r.status = "running" ∧ r2.status = "stopped")))
    ∧ (r.status = "exited" →
      (registryGet (get_app_status st name).1 name).map LaunchRecord.status = some "exited"
      ∧ (registryGet (stop_app st name).1 name).map LaunchRecord.status = some "exited") := by
  obtain ⟨⟨al, ec, ig⟩, port, status⟩ := r
  refine ⟨?_, ?_, ?_⟩
  · intro r2 h2
    cases al with
    | true =>
      have hreg : (get_app_status st name).1 = st := by
        simp [get_app_status, hget, Process.poll]
      rw [hreg, hget] at h2
      injection h2 with h2
      left
      rw [← h2]
    | false =>
      have hreg : (get_app_status st name).1 =
          registrySet st name ⟨⟨false, ec, ig⟩, port, "exited"⟩ := by
        simp [get_app_status, hget, Process.poll]
      rw [hreg, registryGet_set_self] at h2
      injection h2 with h2
      right
      rw [← h2]
  · intro r2 h2
    cases al with
    | false =>
      have hreg : (stop_app st name).1 = st := by
        simp [stop_app, hget, Process.poll]
      rw [hreg, hget] at h2
      injection h2 with h2
      left
      exact h2.symm
    | true =>
      have hstat : status = "running" := by
        by_contra hne
        exact absurd (show true = false from hok hne) (by decide)
      right
      cases ig with
      | false =>
        have hreg : (stop_app st name).1 =
            registrySet st name ⟨⟨false, -15, false⟩, port, "stopped"⟩ := by
          simp [stop_app, hget, Process.poll, Process.terminate]
        rw [hreg, registryGet_set_self] at h2
        injection h2 with h2
        exact ⟨hstat, by rw [← h2]⟩
      | true =>
        have hreg : (stop_app st name).1 =
            registrySet st name ⟨⟨false, -9, true⟩, port, "stopped"⟩ := by
          simp [stop_app, hget, Process.poll, Process.terminate, Process.kill]
        rw [hreg, registryGet_set_self] at h2
        injection h2 with h2
        exact ⟨hstat, by rw [← h2]⟩
  · intro hst
    have hal : al = false := hok (by rw [hst]; decide)
    subst hal
    constructor
    · have hreg : (get_app_status st name).1 =
          registrySet st name ⟨⟨false, ec, ig⟩, port, "exited"⟩ := by
        simp [get_app_status, hget, Process.poll]
      rw [hreg, registryGet_set_self]
      rfl
    · have hreg : (stop_app st name).1 = st := by
        simp [stop_app, hget, Process.poll]
      rw [hreg, hget]
      have hst2 : status = "exited" := hst
      simp [hst2]

/-- Witness for the amended C6 at the live record of `stTest`: a status poll
leaves the status `"running"` or marks it `"exited"`, and a stop either
leaves the record alone or moves it from `"running"` to `"stopped"`. -/
theorem record_status_transitions_witness :
    (∀ r2, registryGet (get_app_status stTest "A").1 "A" = some r2 →
      (r2.status = recAlive.status ∨ r2.status = "exited"))
    ∧ (∀ r2, registryGet (stop_app stTest "A").1 "A" = some r2 →
      (r2 = recAlive ∨ (recAlive.status = "running" ∧ r2.status = "stopped"))) := by
  have h := record_status_transitions stTest "A" recAlive (by decide)
    (fun hne => absurd rfl hne)
  exact ⟨h.1, h.2.1⟩
